import Mathlib

/-!
Shallow embedding of the two modules of this repository:
`src/edgelet/edgelet-http/src/error.rs` (the unified error model and its
rendering to an HTTP-shaped response) and
`src/tools/snitch/snitcher/src/client.rs` (the generic request pipeline:
query construction, URL join, header injection, response classification).
Machine strings are modelled as Lean `String`; Rust's `String::len` (a byte
count) is modelled by an explicit UTF-8 byte encoder.
-/

/-- UTF-8 encoding of one character as its list of bytes (each < 256), mirroring
the byte representation Rust strings use. -/
def utf8Bytes (c : Char) : List Nat :=
  let n := c.toNat
  if n < 128 then [n]
  else if n < 2048 then [192 + n / 64, 128 + n % 64]
  else if n < 65536 then [224 + n / 4096, 128 + (n / 64) % 64, 128 + n % 64]
  else [240 + n / 262144, 128 + (n / 4096) % 64, 128 + (n / 64) % 64, 128 + n % 64]

/-- All UTF-8 bytes of a string. -/
def strBytes (s : String) : List Nat :=
  (s.data.map utf8Bytes).flatten

/-- Model of Rust `String::len`: the UTF-8 byte length. -/
def utf8Len (s : String) : Nat :=
  (strBytes s).length

/-- `ErrorKind` from `edgelet-http/src/error.rs` (the `cfg(windows)` variant
included, since the match in `into_response` treats it under the wildcard arm
anyway). -/
inductive ErrorKind where
  | io
  | hyper
  | invalidApiVersion
  | invalidUri (uri : String)
  | urlParse
  | hyperPipe
deriving DecidableEq

/-- The `fail(display = ...)` text of each `ErrorKind` variant. -/
def ErrorKind.display : ErrorKind → String
  | .io => "IO error"
  | .hyper => "Hyper error"
  | .invalidApiVersion => "Invalid or missing API version"
  | .invalidUri u => "Invalid uri " ++ u
  | .urlParse => "Cannot parse uri"
  | .hyperPipe => "Named pipe error"

/-- `Error` from `edgelet-http/src/error.rs`: a `Context<ErrorKind>` pairing the
classification with its causal chain. The chain is modelled by the display
texts of the `Fail::cause` links, most specific first — exactly the sequence
the `while let Some(cause) = fail.cause()` loop in `into_response` visits. -/
structure Error where
  kind : ErrorKind
  causes : List String
deriving DecidableEq

/-- `Display for Error` delegates to `Context<ErrorKind>`, which displays the
context value, i.e. the kind's display text. -/
def Error.display (e : Error) : String := e.kind.display

/-- `From<ErrorKind> for Error`: `Context::new(kind)` carries no cause. -/
def errorFromKind (k : ErrorKind) : Error := ⟨k, []⟩

/-- `hyper::Error` as the conversion target of `From<Error> for HyperError`.
Only the variant identity matters to the embedding, so a few representative
variants suffice to make constancy a real statement. -/
inductive HyperError where
  | method
  | status
  | version
  | header
deriving DecidableEq

/-- `From<Error> for HyperError` (error.rs lines 82-86): ignores the error and
returns `HyperError::Method`. -/
def hyperErrorFromError (_e : Error) : HyperError := HyperError.method

/-- Lowercase hexadecimal digit, as used by serde_json's control-char escapes. -/
def lowerHexDigit (n : Nat) : Char :=
  if n < 10 then Char.ofNat (48 + n) else Char.ofNat (87 + n)

/-- serde_json's escaping of one character inside a JSON string literal. -/
def jsonEscapeChar (c : Char) : String :=
  if c = '"' then "\\\""
  else if c = '\\' then "\\\\"
  else if c = Char.ofNat 8 then "\\b"
  else if c = Char.ofNat 9 then "\\t"
  else if c = Char.ofNat 10 then "\\n"
  else if c = Char.ofNat 12 then "\\f"
  else if c = Char.ofNat 13 then "\\r"
  else if c.toNat < 32 then
    "\\u00" ++ String.singleton (lowerHexDigit (c.toNat / 16))
      ++ String.singleton (lowerHexDigit (c.toNat % 16))
  else String.singleton c

/-- serde_json's escaping of a string's characters. -/
def jsonEscape (s : String) : String :=
  String.join (s.data.map jsonEscapeChar)

/-- Serialization of the body object built by the `json!` macro in
`into_response`: a single-field object whose `message` value is the given
text (braces written as byte escapes). -/
def jsonMessageBody (message : String) : String :=
  "\x7b\"message\":\"" ++ jsonEscape message ++ "\"\x7d"

/-- The `while let Some(cause) = fail.cause()` loop of `into_response`
(error.rs lines 117-120), embedded as a tail recursion: each iteration
appends a newline, a tab, `caused by: ` and the cause's display text to the
accumulated message. -/
def buildMessage : List String → String → String
  | [], acc => acc
  | cause :: rest, acc => buildMessage rest (acc ++ "\n\tcaused by: " ++ cause)

/-- The status-code match in `into_response` (error.rs lines 122-125). -/
def statusCodeFor : ErrorKind → Nat
  | .invalidApiVersion => 400
  | _ => 500

/-- An HTTP-shaped response: status, header list, body text. -/
structure HttpResponse where
  status : Nat
  headers : List (String × String)
  body : String
deriving DecidableEq

/-- `IntoResponse for Error` (error.rs lines 113-137): walk the causal chain
into the message, pick the status from the kind, serialize the single-field
JSON body, set content-type and a content-length equal to the body's byte
length. -/
def Error.into_response (e : Error) : HttpResponse :=
  let message := buildMessage e.causes e.display
  let status := statusCodeFor e.kind
  let body := jsonMessageBody message
  { status := status
    headers :=
      [("content-type", "application/json"),
       ("content-length", toString (utf8Len body))]
    body := body }

/-- Uppercase hexadecimal digit, as used by percent-encoding. -/
def upperHexDigit (n : Nat) : Char :=
  if n < 10 then Char.ofNat (48 + n) else Char.ofNat (55 + n)

/-- Bytes passed through unchanged by the `application/x-www-form-urlencoded`
byte serializer: ASCII alphanumerics and `*`, `-`, `.`, `_`. -/
def formUnreserved (b : Nat) : Bool :=
  (48 ≤ b && b ≤ 57) || (65 ≤ b && b ≤ 90) || (97 ≤ b && b ≤ 122)
    || b = 42 || b = 45 || b = 46 || b = 95

/-- Form-style percent-encoding of one byte: unreserved bytes pass through,
space becomes `+`, every other byte becomes `%XX` with uppercase hex. -/
def formEncodeByte (b : Nat) : String :=
  if formUnreserved b then String.singleton (Char.ofNat b)
  else if b = 32 then "+"
  else "%" ++ String.singleton (upperHexDigit (b / 16))
    ++ String.singleton (upperHexDigit (b % 16))

/-- Form-style percent-encoding of a string, byte by byte over its UTF-8
encoding, as `url::form_urlencoded` does. -/
def formEncode (s : String) : String :=
  String.join ((strBytes s).map formEncodeByte)

/-- `form_urlencoded::Serializer::append_pair`: a `&` separator when output is
already present, then encoded key, `=`, encoded value. -/
def appendPair (acc k v : String) : String :=
  (if acc = "" then acc else acc ++ "&") ++ formEncode k ++ "=" ++ formEncode v

/-- The fold over the query mapping in `request_bytes` (client.rs lines 54-59):
pairs are appended in the mapping's iteration order, modelled here by the
order of the list. -/
def serializePairs (pairs : List (String × String)) : String :=
  pairs.foldl (fun acc p => appendPair acc p.1 p.2) ""

/-- Query construction in `request_bytes` (client.rs lines 52-67): an absent
mapping, or a mapping that serializes empty, gives the empty string; otherwise
the serialized pairs prefixed with `?`. -/
def queryString (query : Option (List (String × String))) : String :=
  match query with
  | none => ""
  | some pairs =>
    let q := serializePairs pairs
    if q = "" then "" else "?" ++ q

/-- The relative reference handed to `Url::join` (client.rs line 74): the
`format!` there always inserts one `?` between the path and the (possibly
already `?`-prefixed) query string. -/
def joinArg (path : String) (query : Option (List (String × String))) : String :=
  path ++ "?" ++ queryString query

/-- Splits a character list at its first `?`: the part before it, and — when a
`?` occurs — everything after it. -/
def splitQuery : List Char → List Char × Option (List Char)
  | [] => ([], none)
  | c :: rest =>
    if c = '?' then ([], some rest)
    else
      let r := splitQuery rest
      (c :: r.1, r.2)

/-- The query component the WHATWG URL parser (the `url` crate) assigns to a
fragment-free relative reference: everything after the first `?`; a later `?`
stays verbatim inside the query, since `?` is not in the query
percent-encode set. -/
def urlQueryComponent (ref : String) : Option String :=
  ((splitQuery ref.data).2).map String.mk

/-- Serialization of the joined URL, its scheme, host and resolved path
abstracted into `resolvedPath` (path resolution against the base is out of the
claims' scope): a present query component prints its `?` even when empty. -/
def serializeWithQuery (resolvedPath : String) (query : Option String) : String :=
  match query with
  | none => resolvedPath
  | some q => resolvedPath ++ ("?" ++ q)

/-- An outgoing request: method, URI, header list, body text. -/
structure HttpRequest where
  method : String
  uri : String
  headers : List (String × String)
  body : String
deriving DecidableEq

/-- Request building in `request_bytes` (client.rs lines 83-104): when asked,
an `if-match` header with the static value `Any` is attached; a supplied body
(already serialized to JSON text, serde being out of scope) adds
`content-type: text/json` and a `content-length` equal to the serialized byte
length; otherwise the payload is empty. -/
def buildRequest (method uri : String) (add_if_match : Bool)
    (body : Option String) : HttpRequest :=
  let ifMatchHeaders := if add_if_match then [("if-match", "Any")] else []
  match body with
  | some serialized =>
    { method := method
      uri := uri
      headers := ifMatchHeaders ++
        [("content-type", "text/json"),
         ("content-length", toString (utf8Len serialized))]
      body := serialized }
  | none =>
    { method := method, uri := uri, headers := ifMatchHeaders, body := "" }

/-- Failure kinds of the snitcher client's error type, as far as the claims
need them. -/
inductive SnitchErrorKind where
  | remoteFailure (status : Nat) (body : List Nat)
  | hyper
deriving DecidableEq

/-- The snitcher client's error value, identified by its kind. -/
structure SnitchError where
  kind : SnitchErrorKind
deriving DecidableEq

/-- Modelled from the spec: the snitcher crate's own error module is not under
`src/` (only `client.rs` is), so `Error::from((status, &*body))` is taken from
the spec's taxonomy — a remote-failure classification carrying the status code
and the raw response body as diagnostic content. -/
def snitchErrorFrom (status : Nat) (body : List Nat) : SnitchError :=
  ⟨SnitchErrorKind.remoteFailure status body⟩

/-- The raw response body a remote-failure error carries as diagnostic
content. -/
def SnitchError.diagnosticBody : SnitchError → Option (List Nat)
  | ⟨SnitchErrorKind.remoteFailure _ b⟩ => some b
  | ⟨SnitchErrorKind.hyper⟩ => none

/-- `http::StatusCode::is_success`: status in 200..=299. -/
def isSuccessStatus (status : Nat) : Bool :=
  200 ≤ status && status < 300

/-- The classification closure at the end of `request_bytes` (client.rs lines
129-139), applied to the buffered status and body bytes of a response. -/
def classifyResponse (status : Nat) (body : List Nat) :
    Except SnitchError (Option (List Nat)) :=
  if isSuccessStatus status then
    if body.length = 0 then Except.ok none
    else Except.ok (some body)
  else Except.error (snitchErrorFrom status body)

/-- The spec's description of the message suffix: for each link of the causal
chain, in order from most specific onward, a newline, a tab, the text
`caused by: ` and that link's display text. Stated from the spec's words, to
be compared with the loop embedding `buildMessage`. -/
def causedByChain : List String → String
  | [] => ""
  | cause :: rest => "\n\tcaused by: " ++ cause ++ causedByChain rest

theorem buildMessage_eq_chain (causes : List String) (acc : String) :
    buildMessage causes acc = acc ++ causedByChain causes := by
  induction causes generalizing acc with
  | nil => exact (String.append_empty acc).symm
  | cons c rest ih =>
    show buildMessage rest (acc ++ "\n\tcaused by: " ++ c)
        = acc ++ ("\n\tcaused by: " ++ c ++ causedByChain rest)
    rw [ih]
    simp [String.append_assoc]

theorem appendPair_ne_empty (acc k v : String) : appendPair acc k v ≠ "" := by
  intro h
  have hlen := congrArg String.length h
  have h1 : ("=" : String).length = 1 := rfl
  have h0 : ("" : String).length = 0 := rfl
  rw [appendPair, String.length_append, String.length_append, String.length_append,
    h1, h0] at hlen
  omega

theorem serializePairs_loop_ne (pairs : List (String × String)) (acc : String)
    (h : acc ≠ "") :
    pairs.foldl (fun a p => appendPair a p.1 p.2) acc ≠ "" := by
  induction pairs generalizing acc with
  | nil => simpa using h
  | cons p rest ih => exact ih (appendPair acc p.1 p.2) (appendPair_ne_empty acc p.1 p.2)

theorem serializePairs_ne_empty :
    ∀ pairs : List (String × String), pairs ≠ [] → serializePairs pairs ≠ ""
  | [], h => absurd rfl h
  | p :: rest, _ =>
    serializePairs_loop_ne rest (appendPair "" p.1 p.2) (appendPair_ne_empty "" p.1 p.2)

theorem splitQuery_append (l r : List Char) (h : '?' ∉ l) :
    splitQuery (l ++ '?' :: r) = (l, some r) := by
  induction l with
  | nil => simp [splitQuery]
  | cons c cs ih =>
    rw [List.mem_cons, not_or] at h
    have hc : ¬ c = '?' := fun hc => h.1 hc.symm
    simp [splitQuery, hc, ih h.2]

theorem qmark_cons (s : String) : String.mk ('?' :: s.data) = "?" ++ s := by
  obtain ⟨l⟩ := s
  rfl

/-- C1: once a dispatched request yields a response, the result of
`request_bytes` is classified by status code: a 2xx status with an empty
buffered body gives `Ok(None)`; a 2xx status with a non-empty body gives
`Ok(Some(bytes))` with exactly the buffered body; any status outside 200-299
gives an error whose kind is remote-failure and whose diagnostic content
carries the raw response body. -/
theorem classify_by_status (status : Nat) (body : List Nat) :
    (200 ≤ status ∧ status ≤ 299 →
      classifyResponse status body =
        Except.ok (if body = [] then none else some body)) ∧
    (¬ (200 ≤ status ∧ status ≤ 299) →
      ∃ e : SnitchError, classifyResponse status body = Except.error e ∧
        e.kind = SnitchErrorKind.remoteFailure status body ∧
        e.diagnosticBody = some body) := by
  have hiff : isSuccessStatus status = true ↔ (200 ≤ status ∧ status ≤ 299) := by
    simp only [isSuccessStatus, Bool.and_eq_true, decide_eq_true_eq]
    omega
  constructor
  · intro h
    have hs : isSuccessStatus status = true := hiff.mpr h
    cases body with
    | nil => simp [classifyResponse, hs]
    | cons b rest => simp [classifyResponse, hs]
  · intro h
    have hs : isSuccessStatus status = false := by
      rcases Bool.eq_false_or_eq_true (isSuccessStatus status) with ht | hf
      · exact absurd (hiff.mp ht) h
      · exact hf
    exact ⟨snitchErrorFrom status body, by simp [classifyResponse, hs], rfl, rfl⟩

theorem classify_by_status_witness :
    classifyResponse 200 [] = Except.ok none ∧
    (∃ e : SnitchError, classifyResponse 404 [104, 105] = Except.error e ∧
      e.kind = SnitchErrorKind.remoteFailure 404 [104, 105] ∧
      e.diagnosticBody = some [104, 105]) := by
  constructor
  · have h := (classify_by_status 200 []).1 (by omega)
    simpa using h
  · exact (classify_by_status 404 [104, 105]).2 (by omega)

/-- C2: `into_response` yields status 400 exactly when the error's kind is
`InvalidApiVersion`, and status 500 for every other kind. -/
theorem into_response_status (e : Error) :
    (e.into_response.status = 400 ↔ e.kind = ErrorKind.invalidApiVersion) ∧
    (e.kind ≠ ErrorKind.invalidApiVersion → e.into_response.status = 500) := by
  obtain ⟨k, causes⟩ := e
  cases k <;> simp [Error.into_response, statusCodeFor]

theorem into_response_status_witness :
    (Error.mk ErrorKind.invalidApiVersion []).into_response.status = 400 ∧
    (Error.mk ErrorKind.io []).into_response.status = 500 :=
  ⟨(into_response_status ⟨ErrorKind.invalidApiVersion, []⟩).1.mpr rfl,
   (into_response_status ⟨ErrorKind.io, []⟩).2 (by decide)⟩

/-- C3: the body rendered by `into_response` is the JSON object with the single
field `message`, whose value is the error's display text followed, for each
link of the causal chain in order from most specific onward, by a newline, a
tab, `caused by: ` and that link's display text; the source walks the chain
with an iterative `while` loop, embedded here as the tail recursion
`buildMessage`. -/
theorem into_response_body (e : Error) :
    e.into_response.body =
      "\x7b\"message\":\"" ++ jsonEscape (e.display ++ causedByChain e.causes)
        ++ "\"\x7d" := by
  show jsonMessageBody (buildMessage e.causes e.display) = _
  rw [buildMessage_eq_chain]
  rfl

/-- C6: every response rendered by `into_response` carries content-type
`application/json` and a content-length equal to the UTF-8 byte length of its
serialized body. -/
theorem into_response_headers (e : Error) :
    e.into_response.headers =
      [("content-type", "application/json"),
       ("content-length", toString (utf8Len e.into_response.body))] := rfl

/-- C9: the `From<Error> for HyperError` conversion is the constant
`HyperError::Method`, discarding the error's kind and causal chain. -/
theorem hyper_error_from_error_constant (e : Error) :
    hyperErrorFromError e = HyperError.method := rfl

/-- C10: an error built directly from a kind via `From<ErrorKind>` has no
causal predecessor, so `into_response` renders a `message` equal to exactly
that kind's display text, with zero `caused by: ` lines appended. -/
theorem error_from_kind_response (k : ErrorKind) :
    (errorFromKind k).causes = [] ∧
    causedByChain (errorFromKind k).causes = "" ∧
    (errorFromKind k).into_response.body =
      "\x7b\"message\":\"" ++ jsonEscape k.display ++ "\"\x7d" :=
  ⟨rfl, rfl, rfl⟩

/-- C4 fails as stated: already for the one-pair mapping `a ↦ b` under path
`p`, the dispatched URL's query string is `?a=b` — an extra leading question
mark beyond the percent-encoded pairs `a=b` — because the `format!` at the
join site inserts a `?` in front of the already `?`-prefixed query string. -/
theorem query_extra_qmark :
    urlQueryComponent (joinArg "p" (some [("a", "b")])) = some "?a=b" ∧
    serializePairs [("a", "b")] = "a=b" ∧
    ¬ urlQueryComponent (joinArg "p" (some [("a", "b")])) =
        some (serializePairs [("a", "b")]) :=
  ⟨by decide, by decide, by decide⟩

/-- C4 (amended): for a non-empty mapping, the dispatched URL's query string
is one literal question mark followed by exactly the form-style
percent-encoded key/value pairs in the mapping's iteration order, and nothing
else. -/
theorem query_component_nonempty (path : String) (pairs : List (String × String))
    (hpath : '?' ∉ path.data) (hne : pairs ≠ []) :
    urlQueryComponent (joinArg path (some pairs)) =
      some ("?" ++ serializePairs pairs) := by
  have hq : queryString (some pairs) = "?" ++ serializePairs pairs := by
    simp [queryString, serializePairs_ne_empty pairs hne]
  have hdata : (joinArg path (some pairs)).data
      = path.data ++ '?' :: ('?' :: (serializePairs pairs).data) := by
    rw [joinArg, hq]
    simp [String.data_append]
  simp only [urlQueryComponent, hdata, splitQuery_append _ _ hpath, Option.map]
  rw [qmark_cons]

theorem query_component_nonempty_witness :
    urlQueryComponent (joinArg "p" (some [("a", "b")])) =
      some ("?" ++ serializePairs [("a", "b")]) :=
  query_component_nonempty "p" [("a", "b")] (by decide) (by decide)

/-- C5: at the failing input `add_if_match = true`, the built request carries
an `if-match` header whose value is the literal string `Any` — not the HTTP
wildcard `*` that the claim, and the source's own comment at the call site,
describe; with `add_if_match = false` no such header is attached. -/
theorem if_match_header_value :
    (buildRequest "PUT" "http://h/p?" true none).headers = [("if-match", "Any")] ∧
    ("Any" : String) ≠ "*" ∧
    (buildRequest "PUT" "http://h/p?" false none).headers = [] :=
  ⟨rfl, by decide, rfl⟩

/-- C7: when the query mapping is absent, or present but serializing to an
empty query, the joined URL carries a present-but-empty query component, so
its serialized form is the resolved path followed by a literal `?` with no
characters after it. -/
theorem url_trailing_qmark (path resolvedPath : String)
    (query : Option (List (String × String)))
    (hpath : '?' ∉ path.data)
    (hq : query = none ∨ ∃ pairs, query = some pairs ∧ serializePairs pairs = "") :
    urlQueryComponent (joinArg path query) = some "" ∧
    serializeWithQuery resolvedPath (urlQueryComponent (joinArg path query)) =
      resolvedPath ++ "?" := by
  have hqs : queryString query = "" := by
    rcases hq with h | ⟨pairs, hp, hs⟩
    · rw [h]; rfl
    · rw [hp]; simp [queryString, hs]
  have hdata : (joinArg path query).data = path.data ++ '?' :: [] := by
    rw [joinArg, hqs]
    simp [String.data_append]
  have hcomp : urlQueryComponent (joinArg path query) = some "" := by
    simp only [urlQueryComponent, hdata, splitQuery_append _ _ hpath, Option.map]
  refine ⟨hcomp, ?_⟩
  rw [hcomp]
  rfl

theorem url_trailing_qmark_witness :
    urlQueryComponent (joinArg "p" none) = some "" ∧
    serializeWithQuery "http://host/p" (urlQueryComponent (joinArg "p" none)) =
      "http://host/p" ++ "?" :=
  url_trailing_qmark "p" "http://host/p" none (by decide) (Or.inl rfl)

